import Mathlib

/-!
Shallow embedding of the `recfstab` fstab generator (Rust) and verification of
the frozen claims about it.  Functions are translated from the repository's
source files: `src/fstab.rs`, `src/filter.rs`, `src/device.rs`, `src/mount.rs`,
`src/swap.rs`, `src/lib.rs` and `src/main.rs`.  Strings are modelled as Lean
`String`s; the external `blkid` collaborator is modelled as an oracle
`String → String → Option String` (device, tag ↦ trimmed stdout of a successful
invocation, `none` on any failure).
-/

namespace Recfstab

/-- Rust's `str::starts_with` on string prefixes. -/
def startsWith (s pre : String) : Bool := pre.data.isPrefixOf s.data

/-- Rust's `str::trim`: drop leading and trailing whitespace characters. -/
def rustTrim (s : String) : String :=
  ⟨((s.data.dropWhile Char.isWhitespace).reverse.dropWhile Char.isWhitespace).reverse⟩

/-! ## `src/fstab.rs` -/

/-- Per-character escaping performed by `escape_fstab` (src/fstab.rs):
space, tab, LF, CR, backslash and hash become three-digit octal escapes,
everything else passes through. -/
def escChar (c : Char) : List Char :=
  if c = '\\' then ['\\', '1', '3', '4']
  else if c = ' ' then ['\\', '0', '4', '0']
  else if c = '\t' then ['\\', '0', '1', '1']
  else if c = '\n' then ['\\', '0', '1', '2']
  else if c = '\r' then ['\\', '0', '1', '5']
  else if c = '#' then ['\\', '0', '4', '3']
  else [c]

/-- `escape_fstab` from src/fstab.rs: escape special characters for fstab output. -/
def escape_fstab (s : String) : String := ⟨(s.data.map escChar).flatten⟩

/-- `needs_fsck` from src/fstab.rs: the closed set of fstypes fsck-checked at boot. -/
def needs_fsck (fstype : String) : Bool :=
  fstype == "ext2" || fstype == "ext3" || fstype == "ext4" || fstype == "xfs" ||
    fstype == "f2fs"

/-- `determine_pass_number` from src/fstab.rs. -/
def determine_pass_number (fstab_target fstype : String) : Nat :=
  if fstab_target = "/" then 1
  else if needs_fsck fstype then 2
  else 0

/-- The historical `needs_fsck` from src/main.rs, which additionally lists
`btrfs` and `vfat`. -/
def main_needs_fsck (fstype : String) : Bool :=
  fstype == "ext2" || fstype == "ext3" || fstype == "ext4" || fstype == "xfs" ||
    fstype == "btrfs" || fstype == "vfat" || fstype == "f2fs"

/-- Rust's standard strip-prefix operation on strings. -/
def stripPrefixFn (s pre : String) : Option String :=
  if pre.data.isPrefixOf s.data then some ⟨s.data.drop pre.data.length⟩ else none

/-- `make_fstab_target` from src/fstab.rs: absolute mount target to a path
relative to the scan root. -/
def make_fstab_target (target root_str : String) : String :=
  if target = "" then "/"
  else if target = root_str then "/"
  else
    let stripped := (stripPrefixFn target root_str).getD target
    if stripped = "" then "/"
    else if startsWith stripped "/" then stripped
    else "/" ++ stripped

/-! ## `src/filter.rs` -/

/-- `RUNTIME_OPTIONS` from src/filter.rs. -/
def RUNTIME_OPTIONS : List String := ["lazytime", "noatime", "relatime", "ro", "rw", "seclabel"]

/-- The filter predicate used inside `filter_options` (src/filter.rs): keep a
trimmed token when it is nonempty, not a runtime-only option, and does not
begin with `subvolid=`. -/
def optKeep (opt : String) : Bool :=
  !(opt == "") && !(RUNTIME_OPTIONS.contains opt) && !(startsWith opt "subvolid=")

/-- The surviving tokens of an options string: split on commas, trim each
token, keep those passing `optKeep` (src/filter.rs, `filter_options`). -/
def splitCommaTokens (options : String) : List String :=
  ((options.data.splitOn ',').map (fun t => rustTrim ⟨t⟩)).filter optKeep

/-- `filter_options` from src/filter.rs. -/
def filter_options (options : String) : String :=
  let filtered := splitCommaTokens options
  if filtered = [] then "defaults"
  else ⟨List.intercalate [','] (filtered.map String.data)⟩

/-- `is_under_root` from src/filter.rs. -/
def is_under_root (target root_str : String) : Bool :=
  if root_str = "/" then true
  else target == root_str || startsWith target (root_str ++ "/")

/-! ## `src/device.rs` -/

/-- `extract_device_path` from src/device.rs: truncate a btrfs
`device[/subvol]` source at the first `[`. -/
def extract_device_path (source : String) : String :=
  if source = "" then ""
  else if source.data.contains '[' then
    let pre := source.data.takeWhile (fun c => c ≠ '[')
    if pre = [] then "" else ⟨pre⟩
  else source

/-- `lookup_device_id` from src/device.rs, with the external `blkid` process
modelled by the oracle `blkid` (returns the stdout of a successful run). -/
def lookup_device_id (blkid : String → String → Option String)
    (device tag : String) : Option String :=
  match blkid device tag with
  | none => none
  | some out =>
    let value := rustTrim out
    if value = "" then none else some (tag ++ "=" ++ value)

/-- `get_device_identifier` from src/device.rs. -/
def get_device_identifier (blkid : String → String → Option String)
    (source id_type : String) : String :=
  if source = "" then "none"
  else if startsWith source "UUID=" || startsWith source "LABEL=" ||
      startsWith source "PARTUUID=" || startsWith source "PARTLABEL=" then source
  else
    let device := extract_device_path source
    if device = "" then source
    else if startsWith device "/dev/" then
      match lookup_device_id blkid device id_type with
      | some id => id
      | none => device
    else source

/-! ## `src/mount.rs` -/

/-- A mount record (`MountInfo` from src/mount.rs). -/
structure MountInfo where
  target : String
  source : String
  fstype : String
  options : String
deriving DecidableEq

/-- Replace every (left-to-right, non-overlapping) occurrence of the nonempty
pattern `pat` by `rep`, with fuel for structural recursion; models Rust's
`str::replace` for a nonempty pattern. -/
def replaceFuel (pat rep : List Char) : Nat → List Char → List Char
  | 0, l => l
  | _ + 1, [] => []
  | fuel + 1, c :: rest =>
    if pat.isPrefixOf (c :: rest) then
      rep ++ replaceFuel pat rep fuel ((c :: rest).drop pat.length)
    else c :: replaceFuel pat rep fuel rest

/-- Rust's `str::replace` for a nonempty pattern. -/
def replaceList (pat rep l : List Char) : List Char := replaceFuel pat rep l.length l

/-- `unescape_findmnt` from src/mount.rs: sequential replacement of the
findmnt hex escapes, backslash last. -/
def unescape_findmnt (s : String) : String :=
  ⟨replaceList ['\\', 'x', '5', 'c'] ['\\']
    (replaceList ['\\', 'x', '0', 'd'] ['\r']
      (replaceList ['\\', 'x', '0', 'a'] ['\n']
        (replaceList ['\\', 'x', '0', '9'] ['\t']
          (replaceList ['\\', 'x', '2', '0'] [' '] s.data))))⟩

/-- Rust's `str::splitn(n, sep)` on a character separator. -/
def splitnChar (n : Nat) (sep : Char) (l : List Char) : List (List Char) :=
  match n with
  | 0 => []
  | 1 => [l]
  | n + 2 =>
    if l.contains sep then
      l.takeWhile (fun c => c ≠ sep) ::
        splitnChar (n + 1) sep ((l.dropWhile (fun c => c ≠ sep)).tail)
    else [l]

/-- `parse_mount_line` from src/mount.rs: parse one line of `findmnt -rn`
output into a `MountInfo`. -/
def parse_mount_line (line : String) : Option MountInfo :=
  let l := rustTrim line
  if l = "" then none
  else
    match splitnChar 4 ' ' l.data with
    | [p0, p1, p2, p3] =>
      let target := unescape_findmnt ⟨p0⟩
      let source := unescape_findmnt ⟨p1⟩
      let fstype : String := ⟨p2⟩
      let options : String := ⟨p3⟩
      if target = "" || fstype = "" then none
      else some ⟨target, source, fstype, options⟩
    | _ => none

/-! ## `src/swap.rs` -/

/-- A swap record (`SwapInfo` from src/swap.rs). -/
structure SwapInfo where
  filename : String
  swap_type : String
deriving DecidableEq

/-- `is_swap_file` from src/swap.rs. -/
def is_swap_file (path : String) : Bool := !(startsWith path "/dev/")

/-- `get_swap_identifier` from src/swap.rs. -/
def get_swap_identifier (blkid : String → String → Option String)
    (swap : SwapInfo) (id_type : String) : String :=
  if is_swap_file swap.filename then swap.filename
  else get_device_identifier blkid swap.filename id_type

/-- Rust's `str::trim_end_matches('/')`. -/
def trimEndSlashes (s : String) : String :=
  ⟨(s.data.reverse.dropWhile (fun c => c = '/')).reverse⟩

/-- `get_swap_target` from src/swap.rs. -/
def get_swap_target (swap : SwapInfo) (root : String) : String :=
  if is_swap_file swap.filename then
    let canonical_root := if root = "/" then root else trimEndSlashes root
    if swap.filename = canonical_root then "/"
    else
      match stripPrefixFn swap.filename canonical_root with
      | some relative =>
        if relative = "" then "/"
        else if startsWith relative "/" then relative
        else "/" ++ relative
      | none => swap.filename
  else "none"

/-- Character class accepted by the octal-escape reader in
`unescape_proc_swaps` (src/swap.rs): an ASCII digit other than 8 and 9. -/
def isOctalDigit (c : Char) : Bool := c.isDigit && !(c == '8') && !(c == '9')

/-- Value of a string of octal digits (`u8::from_str_radix(_, 8)` succeeds
exactly when this value fits in a byte). -/
def octalVal (ds : List Char) : Nat := ds.foldl (fun a d => 8 * a + (d.toNat - 48)) 0

/-- Body of `unescape_proc_swaps` (src/swap.rs): after a backslash, read up to
three octal digits; exactly three digits forming a byte value decode to that
byte, anything else is kept literally.  Fuel makes the recursion structural;
`fuel = length` always suffices since every step consumes at least one
character. -/
def unescapeOctalFuel : Nat → List Char → List Char
  | 0, l => l
  | _ + 1, [] => []
  | fuel + 1, c :: rest =>
    if c = '\\' then
      let ds := (rest.takeWhile isOctalDigit).take 3
      if ds.length = 3 ∧ octalVal ds ≤ 255 then
        Char.ofNat (octalVal ds) :: unescapeOctalFuel fuel (rest.drop 3)
      else '\\' :: (ds ++ unescapeOctalFuel fuel (rest.drop ds.length))
    else c :: unescapeOctalFuel fuel rest

/-- `unescape_proc_swaps` from src/swap.rs: decode octal escapes in
/proc/swaps filenames. -/
def unescape_proc_swaps (s : String) : String := ⟨unescapeOctalFuel s.data.length s.data⟩

/-! ## Emitted entry lines (`run` in src/lib.rs, `print_swap_entries` in src/swap.rs) -/

/-- The non-comment fstab line emitted by `run` (src/lib.rs) for a surviving
mount record: `{id}\t{target}\t{fstype}\t{options}\t0\t{pass}` where only the
identifier and the target are passed through `escape_fstab`. -/
def mount_entry_line (blkid : String → String → Option String)
    (m : MountInfo) (root_str id_tag : String) : String :=
  let fstab_target := make_fstab_target m.target root_str
  escape_fstab (get_device_identifier blkid m.source id_tag) ++ "\t" ++
    escape_fstab fstab_target ++ "\t" ++ m.fstype ++ "\t" ++
    filter_options m.options ++ "\t0\t" ++
    toString (determine_pass_number fstab_target m.fstype)

/-- The non-comment fstab line emitted by `print_swap_entries` (src/swap.rs)
for a swap record: `{id}\t{target}\tswap\tdefaults\t0\t0`. -/
def swap_entry_line (blkid : String → String → Option String)
    (swap : SwapInfo) (root id_type : String) : String :=
  escape_fstab (get_swap_identifier blkid swap id_type) ++ "\t" ++
    escape_fstab (get_swap_target swap root) ++ "\tswap\tdefaults\t0\t0"

/-! ## Whitespace fields of an output line -/

/-- The four fstab field-separator characters (whitespace). -/
def isWsChar (c : Char) : Bool := c == ' ' || c == '\t' || c == '\n' || c == '\r'

/-- Split a character list at whitespace characters, keeping empty chunks. -/
def splitWsAux : List Char → List Char → List (List Char)
  | [], acc => [acc.reverse]
  | c :: rest, acc =>
    if isWsChar c then acc.reverse :: splitWsAux rest []
    else splitWsAux rest (c :: acc)

/-- The whitespace-separated fields of a string: split at whitespace and drop
empty chunks. -/
def wsFields (s : String) : List (List Char) :=
  (splitWsAux s.data []).filter (fun w => !w.isEmpty)

/-! ## A checker for well-escaped fstab fields -/

/-- The five characters that must never appear literally in an escaped fstab
field: the four field separators and the comment leader. -/
def isSpecialChar (c : Char) : Bool :=
  c == ' ' || c == '\t' || c == '\n' || c == '\r' || c == '#'

/-- The six three-digit octal escape bodies `escape_fstab` can emit. -/
def octTriples : List (List Char) :=
  [['1', '3', '4'], ['0', '4', '0'], ['0', '1', '1'],
   ['0', '1', '2'], ['0', '1', '5'], ['0', '4', '3']]

/-- Scanner accepting exactly the strings in which every backslash starts one
of the six octal escape sequences and no special character occurs literally. -/
def fstabEscaped : List Char → Bool
  | [] => true
  | c :: rest =>
    if c = '\\' then
      match rest with
      | a :: b :: g :: rest2 => octTriples.contains [a, b, g] && fstabEscaped rest2
      | _ => false
    else !(isSpecialChar c) && fstabEscaped rest

/-! ## Helper lemmas -/

lemma string_eq_of_data {a b : String} (h : a.data = b.data) : a = b := by
  cases a; cases b; exact congrArg String.mk (by simpa using h)

lemma data_append (a b : String) : (a ++ b).data = a.data ++ b.data := by
  cases a; cases b; rfl

lemma string_data_eq_nil_iff (s : String) : s.data = [] ↔ s = "" := by
  constructor
  · intro h; exact string_eq_of_data h
  · intro h; subst h; rfl

lemma startsWith_ne_empty {s pre : String} (hpre : pre ≠ "") (h : startsWith s pre = true) :
    s ≠ "" := by
  intro he
  subst he
  rw [startsWith, List.isPrefixOf_iff_prefix] at h
  have : pre.data = [] := List.prefix_nil.mp h
  exact hpre (string_eq_of_data this)

lemma escChar_spec (c : Char) (L : List Char) :
    (∀ x ∈ escChar c, isSpecialChar x = false) ∧
      fstabEscaped (escChar c ++ L) = fstabEscaped L := by
  by_cases h1 : c = '\\'
  · subst h1; exact ⟨by decide, by simp [escChar, fstabEscaped, octTriples]⟩
  by_cases h2 : c = ' '
  · subst h2; exact ⟨by decide, by simp [escChar, fstabEscaped, octTriples]⟩
  by_cases h3 : c = '\t'
  · subst h3; exact ⟨by decide, by simp [escChar, fstabEscaped, octTriples]⟩
  by_cases h4 : c = '\n'
  · subst h4; exact ⟨by decide, by simp [escChar, fstabEscaped, octTriples]⟩
  by_cases h5 : c = '\r'
  · subst h5; exact ⟨by decide, by simp [escChar, fstabEscaped, octTriples]⟩
  by_cases h6 : c = '#'
  · subst h6; exact ⟨by decide, by simp [escChar, fstabEscaped, octTriples]⟩
  have hesc : escChar c = [c] := by
    rw [escChar, if_neg h1, if_neg h2, if_neg h3, if_neg h4, if_neg h5, if_neg h6]
  have hs : isSpecialChar c = false := by
    simp [isSpecialChar, h2, h3, h4, h5, h6]
  refine ⟨by simp [hesc, hs], ?_⟩
  rw [hesc, List.singleton_append, fstabEscaped.eq_def]
  simp [h1, hs]

lemma escape_list_spec (cs : List Char) :
    (∀ c ∈ (cs.map escChar).flatten, isSpecialChar c = false) ∧
      fstabEscaped (cs.map escChar).flatten = true := by
  induction cs with
  | nil => exact ⟨by simp, rfl⟩
  | cons c cs ih =>
    obtain ⟨ih1, ih2⟩ := ih
    obtain ⟨hc1, hc2⟩ := escChar_spec c ((cs.map escChar).flatten)
    simp only [List.map_cons, List.flatten_cons]
    refine ⟨?_, by rw [hc2, ih2]⟩
    intro x hx
    rcases List.mem_append.mp hx with hx | hx
    · exact hc1 x hx
    · exact ih1 x hx

lemma escape_fstab_no_special (s : String) :
    ∀ c ∈ (escape_fstab s).data, isSpecialChar c = false :=
  (escape_list_spec s.data).1

lemma isWsChar_eq_false_of_not_special {c : Char} (h : isSpecialChar c = false) :
    isWsChar c = false := by
  simp only [isSpecialChar, Bool.or_eq_false_iff] at h
  simp [isWsChar, h.1.1.1.1, h.1.1.1.2, h.1.1.2, h.1.2]

lemma escape_fstab_no_ws (s : String) :
    ∀ c ∈ (escape_fstab s).data, isWsChar c = false :=
  fun c hc => isWsChar_eq_false_of_not_special (escape_fstab_no_special s c hc)

lemma unescapeOctalFuel_cons_ne (fuel : Nat) {c : Char} (h : c ≠ '\\') (rest : List Char) :
    unescapeOctalFuel (fuel + 1) (c :: rest) = c :: unescapeOctalFuel fuel rest := by
  rw [unescapeOctalFuel.eq_def]
  simp [h]

lemma unescapeOctalFuel_escape (fuel : Nat) (a b g : Char) (rest : List Char)
    (ha : isOctalDigit a = true) (hb : isOctalDigit b = true) (hg : isOctalDigit g = true)
    (hval : octalVal [a, b, g] ≤ 255) :
    unescapeOctalFuel (fuel + 1) ('\\' :: a :: b :: g :: rest) =
      Char.ofNat (octalVal [a, b, g]) :: unescapeOctalFuel fuel rest := by
  rw [unescapeOctalFuel.eq_def]
  simp [List.takeWhile_cons, ha, hb, hg, hval]

/-- Every character `escape_fstab` escapes turns into a backslash followed by
three octal digits whose value decodes back to the character; everything else
stays a single non-backslash character. -/
lemma escChar_cases (c : Char) :
    (∃ a b g, escChar c = ['\\', a, b, g] ∧ isOctalDigit a = true ∧ isOctalDigit b = true ∧
      isOctalDigit g = true ∧ octalVal [a, b, g] ≤ 255 ∧ Char.ofNat (octalVal [a, b, g]) = c) ∨
    (escChar c = [c] ∧ c ≠ '\\') := by
  by_cases h1 : c = '\\'
  · subst h1
    exact Or.inl ⟨'1', '3', '4', by decide, by decide, by decide, by decide, by decide, by decide⟩
  by_cases h2 : c = ' '
  · subst h2
    exact Or.inl ⟨'0', '4', '0', by decide, by decide, by decide, by decide, by decide, by decide⟩
  by_cases h3 : c = '\t'
  · subst h3
    exact Or.inl ⟨'0', '1', '1', by decide, by decide, by decide, by decide, by decide, by decide⟩
  by_cases h4 : c = '\n'
  · subst h4
    exact Or.inl ⟨'0', '1', '2', by decide, by decide, by decide, by decide, by decide, by decide⟩
  by_cases h5 : c = '\r'
  · subst h5
    exact Or.inl ⟨'0', '1', '5', by decide, by decide, by decide, by decide, by decide, by decide⟩
  by_cases h6 : c = '#'
  · subst h6
    exact Or.inl ⟨'0', '4', '3', by decide, by decide, by decide, by decide, by decide, by decide⟩
  refine Or.inr ⟨?_, h1⟩
  rw [escChar, if_neg h1, if_neg h2, if_neg h3, if_neg h4, if_neg h5, if_neg h6]

lemma unescape_escape_list (cs : List Char) :
    ∀ fuel, (cs.map escChar).flatten.length ≤ fuel →
      unescapeOctalFuel fuel ((cs.map escChar).flatten) = cs := by
  induction cs with
  | nil =>
    intro fuel _
    cases fuel <;> rfl
  | cons c cs ih =>
    intro fuel hfuel
    simp only [List.map_cons, List.flatten_cons] at hfuel ⊢
    rcases escChar_cases c with ⟨a, b, g, htrip, ha, hb, hg, hval, hchar⟩ | ⟨htrip, hne⟩
    · rw [htrip] at hfuel ⊢
      cases fuel with
      | zero => simp at hfuel
      | succ f =>
        rw [List.cons_append, List.cons_append, List.cons_append, List.cons_append,
          List.nil_append, unescapeOctalFuel_escape f a b g _ ha hb hg hval, hchar]
        congr 1
        apply ih
        simp only [List.length_append, List.length_cons, List.length_nil] at hfuel
        omega
    · rw [htrip] at hfuel ⊢
      cases fuel with
      | zero => simp at hfuel
      | succ f =>
        rw [List.singleton_append, unescapeOctalFuel_cons_ne f hne]
        congr 1
        apply ih
        simp only [List.length_append, List.length_cons, List.length_nil] at hfuel
        omega

lemma mem_splitOnP_not_p {α : Type} {p : α → Bool} {l : List α} :
    ∀ x ∈ l.splitOnP p, ∀ a ∈ x, p a = false := by
  induction l with
  | nil =>
    intro x hx a ha
    rw [List.splitOnP_nil] at hx
    simp only [List.mem_singleton] at hx
    subst hx
    exact absurd ha (List.not_mem_nil a)
  | cons hd tl ih =>
    intro x hx a ha
    rw [List.splitOnP_cons] at hx
    by_cases hp : p hd
    · rw [if_pos hp] at hx
      rcases List.mem_cons.mp hx with hx | hx
      · subst hx; exact absurd ha (List.not_mem_nil a)
      · exact ih x hx a ha
    · rw [if_neg hp] at hx
      cases hsp : tl.splitOnP p with
      | nil => exact absurd hsp (by apply List.splitOnP_ne_nil)
      | cons y ys =>
        rw [hsp] at hx
        simp only [List.modifyHead_cons] at hx
        rcases List.mem_cons.mp hx with hx | hx
        · subst hx
          rcases List.mem_cons.mp ha with ha | ha
          · subst ha; exact Bool.eq_false_iff.mpr hp
          · exact ih y (hsp ▸ List.mem_cons_self y ys) a ha
        · exact ih x (hsp ▸ List.mem_cons_of_mem y hx) a ha

lemma mem_rustTrim {s : String} {c : Char} (h : c ∈ (rustTrim s).data) : c ∈ s.data := by
  simp only [rustTrim] at h
  rw [List.mem_reverse] at h
  have h2 := (List.dropWhile_sublist _).subset h
  rw [List.mem_reverse] at h2
  exact (List.dropWhile_sublist _).subset h2

lemma comma_not_mem_token {options : String} {t : String}
    (ht : t ∈ splitCommaTokens options) : ',' ∉ t.data := by
  rw [splitCommaTokens] at ht
  have ht2 := List.mem_of_mem_filter ht
  rcases List.mem_map.mp ht2 with ⟨x, hx, rfl⟩
  intro hc
  have hmem : ',' ∈ x := mem_rustTrim hc
  have := mem_splitOnP_not_p x hx ',' hmem
  simp at this

lemma optKeep_of_mem {options : String} {t : String}
    (ht : t ∈ splitCommaTokens options) : optKeep t = true :=
  List.of_mem_filter ht

lemma intercalate_cons_ne_nil {x : List Char} {xs : List (List Char)} {sep : List Char}
    (hx : x ≠ []) : List.intercalate sep (x :: xs) ≠ [] := by
  cases xs with
  | nil => simpa [List.intercalate] using hx
  | cons y ys =>
    rw [List.intercalate, List.intersperse_cons_cons, List.flatten_cons]
    intro h
    rw [List.append_eq_nil] at h
    exact hx h.1

end Recfstab

/-- C7: decoding with the fstab octal-unescape rule undoes `escape_fstab`:
`unescape_proc_swaps (escape_fstab s) = s` for every string, because
`escape_fstab` escapes every backslash, so no decoded text is ever
re-interpreted as an escape. -/
theorem claim_C7_escape_unescape_roundtrip (s : String) :
    Recfstab.unescape_proc_swaps (Recfstab.escape_fstab s) = s := by
  apply Recfstab.string_eq_of_data
  exact Recfstab.unescape_escape_list s.data _ le_rfl

/-- C1: the six-field invariant fails on the code. A mount record whose
options contain an embedded space is accepted by `parse_mount_line` (the
options column absorbs the rest of the line), but `run` prints the filtered
options without `escape_fstab`, so the emitted entry line has seven
whitespace-separated fields instead of six. -/
theorem claim_C1_seven_field_line :
    Recfstab.parse_mount_line "/mnt /dev/sda1 ext4 a b" =
      some ⟨"/mnt", "/dev/sda1", "ext4", "a b"⟩ ∧
    Recfstab.mount_entry_line (fun _ _ => none)
        ⟨"/mnt", "/dev/sda1", "ext4", "a b"⟩ "/mnt" "UUID" =
      "/dev/sda1\t/\text4\ta b\t0\t1" ∧
    (Recfstab.wsFields "/dev/sda1\t/\text4\ta b\t0\t1").length = 7 := by
  refine ⟨by decide, by decide, by decide⟩

/-- C5: `filter_options` splits on commas, trims tokens, drops empty tokens,
runtime-only tokens and `subvolid=`-prefixed tokens, joins the survivors with
commas in order ("defaults" when none survives), and the result never contains
an empty comma-separated token. -/
theorem claim_C5_filter_options (options : String) :
    (Recfstab.filter_options options =
      if Recfstab.splitCommaTokens options = [] then "defaults"
      else ⟨List.intercalate [','] ((Recfstab.splitCommaTokens options).map String.data)⟩) ∧
    (∀ t ∈ Recfstab.splitCommaTokens options,
      t ≠ "" ∧ t ∉ Recfstab.RUNTIME_OPTIONS ∧ Recfstab.startsWith t "subvolid=" = false) ∧
    [] ∉ (Recfstab.filter_options options).data.splitOn ',' := by
  have hdef : Recfstab.filter_options options =
      if Recfstab.splitCommaTokens options = [] then "defaults"
      else ⟨List.intercalate [','] ((Recfstab.splitCommaTokens options).map String.data)⟩ := rfl
  refine ⟨hdef, ?_, ?_⟩
  · intro t ht
    have hk := Recfstab.optKeep_of_mem ht
    simp only [Recfstab.optKeep, Bool.and_eq_true, Bool.not_eq_true'] at hk
    refine ⟨beq_eq_false_iff_ne.mp hk.1.1, ?_, hk.2⟩
    intro hmem
    have : Recfstab.RUNTIME_OPTIONS.contains t = true := by
      simpa using hmem
    rw [hk.1.2] at this
    exact Bool.false_ne_true this
  · rw [hdef]
    by_cases hf : Recfstab.splitCommaTokens options = []
    · rw [if_pos hf]
      decide
    · rw [if_neg hf]
      have hcomma : ∀ l ∈ (Recfstab.splitCommaTokens options).map String.data, ',' ∉ l := by
        intro l hl
        rcases List.mem_map.mp hl with ⟨t, ht, rfl⟩
        exact Recfstab.comma_not_mem_token ht
      have hne : (Recfstab.splitCommaTokens options).map String.data ≠ [] := by
        intro h
        exact hf (List.map_eq_nil_iff.mp h)
      show [] ∉ (List.intercalate [','] _).splitOn ','
      rw [List.splitOn_intercalate _ ',' hcomma hne]
      intro h
      rcases List.mem_map.mp h with ⟨t, ht, hdata⟩
      have : t = "" := Recfstab.string_eq_of_data (hdata.trans rfl)
      have hk := Recfstab.optKeep_of_mem ht
      rw [this] at hk
      simp [Recfstab.optKeep] at hk

/-- C5 witness: the theorem applied at a concrete options string, with the
surviving-token property instantiated at its surviving token. -/
theorem claim_C5_filter_options_witness :
    ("subvol=/root" : String) ∈ Recfstab.splitCommaTokens "rw,subvolid=256,subvol=/root" ∧
    (("subvol=/root" : String) ≠ "" ∧ "subvol=/root" ∉ Recfstab.RUNTIME_OPTIONS ∧
      Recfstab.startsWith "subvol=/root" "subvolid=" = false) :=
  ⟨by decide, (claim_C5_filter_options "rw,subvolid=256,subvol=/root").2.1
    "subvol=/root" (by decide)⟩

/-- C10: an escaped fstab field contains no literal space, tab, LF, CR or '#',
and every backslash in it starts one of the six three-digit octal escapes —
checked by the `fstabEscaped` scanner. -/
theorem claim_C10_escape_is_well_formed (s : String) :
    (∀ c ∈ (Recfstab.escape_fstab s).data,
      ¬(c = ' ' ∨ c = '\t' ∨ c = '\n' ∨ c = '\r' ∨ c = '#')) ∧
    Recfstab.fstabEscaped (Recfstab.escape_fstab s).data = true := by
  refine ⟨?_, (Recfstab.escape_list_spec s.data).2⟩
  intro c hc
  have h := Recfstab.escape_fstab_no_special s c hc
  simp only [Recfstab.isSpecialChar, Bool.or_eq_false_iff, beq_eq_false_iff_ne] at h
  rintro (h0 | h0 | h0 | h0 | h0)
  · exact h.1.1.1.1 h0
  · exact h.1.1.1.2 h0
  · exact h.1.1.2 h0
  · exact h.1.2 h0
  · exact h.2 h0

/-- C9: for every oracle and every identifier kind, resolving the empty source
string returns the literal string "none". -/
theorem claim_C9_empty_source_is_none (blkid : String → String → Option String)
    (kind : String) :
    Recfstab.get_device_identifier blkid "" kind = "none" := rfl

/-- C3: a source that already starts with one of the four tag prefixes is
returned unchanged by the resolver, whatever identifier kind is requested. -/
theorem claim_C3_tagged_source_identity (blkid : String → String → Option String)
    (s kind : String)
    (h : Recfstab.startsWith s "UUID=" = true ∨ Recfstab.startsWith s "LABEL=" = true ∨
      Recfstab.startsWith s "PARTUUID=" = true ∨ Recfstab.startsWith s "PARTLABEL=" = true) :
    Recfstab.get_device_identifier blkid s kind = s := by
  have hne : s ≠ "" := by
    rcases h with h | h | h | h <;> exact Recfstab.startsWith_ne_empty (by decide) h
  rw [Recfstab.get_device_identifier, if_neg hne, if_pos]
  rcases h with h | h | h | h <;> simp [h]

/-- C3 witness: the theorem applied to a concrete already-labelled source. -/
theorem claim_C3_witness :
    Recfstab.startsWith "LABEL=root" "LABEL=" = true ∧
      Recfstab.get_device_identifier (fun _ _ => none) "LABEL=root" "UUID" = "LABEL=root" :=
  ⟨by decide, claim_C3_tagged_source_identity (fun _ _ => none) "LABEL=root" "UUID"
    (Or.inr (Or.inl (by decide)))⟩

/-- C4: the fsck pass number is 1 exactly on the root target (any fstype),
2 exactly on non-root targets whose fstype is in {ext2, ext3, ext4, xfs, f2fs},
and 0 otherwise; in particular btrfs and vfat get 0 off the root. -/
theorem claim_C4_pass_number (t f : String) :
    Recfstab.determine_pass_number "/" f = 1 ∧
    (Recfstab.determine_pass_number t f = 2 ↔
      t ≠ "/" ∧ (f = "ext2" ∨ f = "ext3" ∨ f = "ext4" ∨ f = "xfs" ∨ f = "f2fs")) ∧
    (Recfstab.determine_pass_number t f = 0 ↔
      t ≠ "/" ∧ ¬(f = "ext2" ∨ f = "ext3" ∨ f = "ext4" ∨ f = "xfs" ∨ f = "f2fs")) ∧
    (Recfstab.determine_pass_number t "btrfs" = 0 ↔ t ≠ "/") ∧
    (Recfstab.determine_pass_number t "vfat" = 0 ↔ t ≠ "/") := by
  simp only [Recfstab.determine_pass_number, Recfstab.needs_fsck]
  by_cases ht : t = "/" <;> (simp [ht]; try tauto)

/-- C2 fails as stated at the empty source string: "" contains no bracket and
starts with no tag prefix, yet the resolver returns "none", which is neither
the source unchanged nor a string carrying the requested "UUID=" tag. -/
theorem claim_C2_counterexample :
    ("" : String).data.contains '[' = false ∧
    Recfstab.startsWith "" "UUID=" = false ∧
    Recfstab.startsWith "" "LABEL=" = false ∧
    Recfstab.startsWith "" "PARTUUID=" = false ∧
    Recfstab.startsWith "" "PARTLABEL=" = false ∧
    Recfstab.get_device_identifier (fun _ _ => none) "" "UUID" = "none" ∧
    ("none" : String) ≠ "" ∧
    Recfstab.startsWith "none" "UUID=" = false := by
  decide

/-- C2 amended: for every nonempty source with no bracket and no recognized
tag prefix, the resolver returns either "kind=value" for a nonempty value of
exactly the requested kind, or the source unchanged — never anything else. -/
theorem claim_C2_amended_untagged_resolution (blkid : String → String → Option String)
    (s kind : String) (hne : s ≠ "")
    (hbr : s.data.contains '[' = false)
    (h1 : Recfstab.startsWith s "UUID=" = false)
    (h2 : Recfstab.startsWith s "LABEL=" = false)
    (h3 : Recfstab.startsWith s "PARTUUID=" = false)
    (h4 : Recfstab.startsWith s "PARTLABEL=" = false) :
    (∃ v, v ≠ "" ∧ Recfstab.get_device_identifier blkid s kind = kind ++ "=" ++ v) ∨
      Recfstab.get_device_identifier blkid s kind = s := by
  have hdev : Recfstab.extract_device_path s = s := by
    rw [Recfstab.extract_device_path, if_neg hne, if_neg (by simpa using hbr)]
  rw [Recfstab.get_device_identifier, if_neg hne, if_neg (by simp [h1, h2, h3, h4])]
  simp only [hdev]
  rw [if_neg hne]
  by_cases hpre : Recfstab.startsWith s "/dev/" = true
  · rw [if_pos hpre]
    rw [Recfstab.lookup_device_id]
    cases hb : blkid s kind with
    | none => exact Or.inr rfl
    | some out =>
      by_cases hv : Recfstab.rustTrim out = ""
      · simp only [hv, if_pos rfl]
        exact Or.inr rfl
      · simp only [if_neg hv]
        exact Or.inl ⟨Recfstab.rustTrim out, hv, rfl⟩
  · rw [if_neg hpre]
    exact Or.inr rfl

/-- C2 amended witness: a successful lookup on a concrete block device, with
every hypothesis discharged on that input. -/
theorem claim_C2_amended_witness :
    ("/dev/sda1" : String) ≠ "" ∧
    ((∃ v, v ≠ "" ∧ Recfstab.get_device_identifier (fun _ _ => some "abcd-1234")
        "/dev/sda1" "UUID" = "UUID" ++ "=" ++ v) ∨
      Recfstab.get_device_identifier (fun _ _ => some "abcd-1234") "/dev/sda1" "UUID" =
        "/dev/sda1") :=
  ⟨by decide, claim_C2_amended_untagged_resolution (fun _ _ => some "abcd-1234")
    "/dev/sda1" "UUID" (by decide) (by decide) (by decide) (by decide) (by decide) (by decide)⟩

/-- C6: `is_under_root target root` holds exactly when the root is "/", or the
target equals the root, or the target is the root followed by "/" and anything;
in particular "/mntextra" and "/mnt2" are not under "/mnt" while "/mnt/boot"
is. -/
theorem claim_C6_under_root_characterization (target root : String) :
    (Recfstab.is_under_root target root = true ↔
      root = "/" ∨ target = root ∨ ∃ rest : String, target = root ++ "/" ++ rest) ∧
    Recfstab.is_under_root "/mntextra" "/mnt" = false ∧
    Recfstab.is_under_root "/mnt2" "/mnt" = false ∧
    Recfstab.is_under_root "/mnt/boot" "/mnt" = true := by
  refine ⟨?_, by decide, by decide, by decide⟩
  rw [Recfstab.is_under_root]
  by_cases hr : root = "/"
  · simp [hr]
  · rw [if_neg hr]
    simp only [Bool.or_eq_true, beq_iff_eq, Recfstab.startsWith,
      List.isPrefixOf_iff_prefix]
    constructor
    · rintro (h | ⟨t, ht⟩)
      · exact Or.inr (Or.inl h)
      · refine Or.inr (Or.inr ⟨⟨t⟩, ?_⟩)
        apply Recfstab.string_eq_of_data
        rw [← ht]
        simp [Recfstab.data_append]
    · rintro (h | h | ⟨rest, hrest⟩)
      · exact absurd h hr
      · exact Or.inl h
      · refine Or.inr ⟨rest.data, ?_⟩
        rw [hrest]
        simp [Recfstab.data_append]

/-- C8: the historical fsck predicate from src/main.rs and the authoritative
one from src/fstab.rs disagree exactly on "btrfs" and "vfat" (where the
historical one answers true and the authoritative one false) and agree on
every other fstype string. -/
theorem claim_C8_fsck_variants_disagreement (f : String) :
    (¬(Recfstab.main_needs_fsck f = Recfstab.needs_fsck f) ↔ f = "btrfs" ∨ f = "vfat") ∧
    Recfstab.main_needs_fsck "btrfs" = true ∧ Recfstab.needs_fsck "btrfs" = false ∧
    Recfstab.main_needs_fsck "vfat" = true ∧ Recfstab.needs_fsck "vfat" = false := by
  refine ⟨?_, by decide, by decide, by decide, by decide⟩
  by_cases hb : f = "btrfs"
  · subst hb; simp [Recfstab.main_needs_fsck, Recfstab.needs_fsck]
  · by_cases hv : f = "vfat"
    · subst hv; simp [Recfstab.main_needs_fsck, Recfstab.needs_fsck]
    · have hb2 : (f == "btrfs") = false := beq_eq_false_iff_ne.mpr hb
      have hv2 : (f == "vfat") = false := beq_eq_false_iff_ne.mpr hv
      simp [Recfstab.main_needs_fsck, Recfstab.needs_fsck, hb2, hv2, hb, hv]
